import Mathlib

/-!
Verification of the `vity` CLI (src/vity/cli.py): a shallow embedding of the
`main` entry point's `do`/`chat` branches (lines 162-276) together with the
response parser, the terminal/chat context loading, the tag-stripping loop,
the shell-history append and the top-level error handler, plus theorems about
this embedding.

Python strings are modelled as Lean `String`; Python exceptions as an explicit
`PyError` value threaded through `Except`; file-system reads as input data
(`FileRead` / `ChatFileRead`) describing what the corresponding `open`/`json.load`
call would have produced; the external collaborators `generate_command`,
`generate_chat_response` and `remove_terminal_history_tags` (defined in
`vity/llm.py`, outside the embedded file) as function parameters.
-/

namespace Vity

/-- One element of a message's `content` list: `{"text": ...}` (spec §3). -/
structure ContentPart where
  text : String
deriving DecidableEq, Repr

/-- A chat message `{"role": ..., "content": [...]}` (spec §3). -/
structure Message where
  role : String
  content : List ContentPart
deriving DecidableEq, Repr

/-- A chat history: ordered list of messages, as stored in the chat file. -/
abbrev ChatHistory := List Message

/-- A Python exception value (only what the embedded code can observe of it:
its `str(e)` message, with `IndexError` distinguished because the embedded
code itself raises it via out-of-range subscripts). -/
inductive PyError where
  | indexError
  | other (msg : String)
deriving DecidableEq, Repr

/-- `str(e)` for an exception, as interpolated into `f"❌ Error: {e}"`. -/
def PyError.message : PyError → String
  | .indexError => "list index out of range"
  | .other m => m

/-! ## String machinery: Python `in`, `str.split`, `str.replace` -/

/-- Python `pat in s` on the underlying character lists (substring test). -/
def containsList (pat : List Char) : List Char → Bool
  | [] => pat.isEmpty
  | c :: rest => pat.isPrefixOf (c :: rest) || containsList pat rest

/-- Python `pat in s` for strings. -/
def containsStr (pat s : String) : Bool := containsList pat.data s.data

/-- First occurrence of separator `sep` in a character list: `some (a, b)`
with the text `a` before and `b` after the first occurrence, `none` when the
separator does not occur. -/
def splitFirstL (sep : List Char) : List Char → Option (List Char × List Char)
  | [] => none
  | c :: t =>
    if sep.isPrefixOf (c :: t) then some ([], (c :: t).drop sep.length)
    else (splitFirstL sep t).map fun p => (c :: p.1, p.2)

/-- String version of `splitFirstL`. -/
def splitFirstStr (sep s : String) : Option (String × String) :=
  (splitFirstL sep.data s.data).map fun p => (String.mk p.1, String.mk p.2)

/-- Fuelled worker for Python `str.split(sep)`: repeatedly cut at the first
occurrence of `sep`. The fuel is only a termination device; `s.length` is
always enough. -/
def pySplitAux (sep : List Char) : Nat → List Char → List (List Char)
  | 0, s => [s]
  | n + 1, s =>
    match splitFirstL sep s with
    | none => [s]
    | some (a, b) => a :: pySplitAux sep n b

/-- Python `s.split(sep)` on character lists (for non-empty `sep`). -/
def pySplitL (sep s : List Char) : List (List Char) := pySplitAux sep s.length s

/-- Python `s.split(sep)` for strings (for non-empty `sep`). -/
def pySplit (sep s : String) : List String := (pySplitL sep.data s.data).map String.mk

/-- Fuelled worker for Python `s.replace(pat, "")`: delete every (leftmost,
non-overlapping) occurrence of `pat`. -/
def removeAllAux (pat : List Char) : Nat → List Char → List Char
  | 0, s => s
  | _ + 1, [] => []
  | n + 1, c :: rest =>
    if pat.isPrefixOf (c :: rest) then removeAllAux pat n ((c :: rest).drop pat.length)
    else c :: removeAllAux pat n rest

/-- Python `s.replace(pat, "")` for strings (for non-empty `pat`). -/
def pyRemoveAll (pat s : String) : String :=
  String.mk (removeAllAux pat.data s.data.length s.data)

/-! ## Response parser (cli.py lines 213-219) -/

/-- The command/comment normalisation of cli.py lines 214-219:

    if " # " in content:
        cmd_part = content.split(" # ")[0]
        comment_part = content.split(" # ")[1].replace(" * vity generated command", "")
        cmd_string = f"{cmd_part} # {comment_part}"
    else:
        cmd_string = content

The fallback arm of the `match` is unreachable: when the delimiter occurs the
split has at least two parts (`pySplit_two_of_contains`). -/
def parseDo (content : String) : String :=
  if containsStr " # " content then
    match pySplit " # " content with
    | cmd :: comment :: _ => cmd ++ " # " ++ pyRemoveAll " * vity generated command" comment
    | _ => content
  else content

/-- Parser following the specification's words (§4.3): everything before the
first occurrence of the delimiter is the command, everything after it is the
comment, from which the marker substring is removed wherever it occurs; the
two are reassembled with the canonical delimiter. Used only to compare the
spec's description against `parseDo`. -/
def specParseDo (content : String) : String :=
  match splitFirstStr " # " content with
  | some (cmd, rest) => cmd ++ " # " ++ pyRemoveAll " * vity generated command" rest
  | none => content

/-! ## Output lines printed by `main` (cli.py lines 177, 189, 192, 220, 224, 275) -/

/-- `f"⚠️  Warning: history file '{args.history_file}' not found"` (line 177). -/
def warnHistLine (p : String) : String :=
  s!"⚠️  Warning: history file '{p}' not found"

/-- `f"⚠️  Warning: chat file '{args.chat_file}' contains invalid JSON, starting fresh"` (line 189). -/
def warnChatLine (p : String) : String :=
  s!"⚠️  Warning: chat file '{p}' contains invalid JSON, starting fresh"

/-- `"🤖 Vity is thinking..."` (line 192). -/
def thinkingLine : String := "🤖 Vity is thinking..."

/-- `f"Command: {cmd_string}"` (line 220). -/
def commandLine (cmd : String) : String := s!"Command: {cmd}"

/-- `f"__VITY_CMD__:{cmd_string}"` (line 224). -/
def sentinelLine (cmd : String) : String := s!"__VITY_CMD__:{cmd}"

/-- `f"❌ Error: {e}"` (line 275). -/
def errorLine (msg : String) : String := s!"❌ Error: {msg}"

/-- ZSH extended history entry `f": {int(time.time())}:0;{cmd_string}\n"` (line 238). -/
def zshHistLine (now : Nat) (cmd : String) : String := s!": {now}:0;{cmd}\n"

/-- Bash history entry `f"{cmd_string}\n"` (line 240). -/
def bashHistLine (cmd : String) : String := s!"{cmd}\n"

/-! ## Context loading (cli.py lines 170-190) -/

/-- What the `open(args.history_file).read()` call would produce: the file's
contents, a `FileNotFoundError`, or some other `OSError`-like exception. -/
inductive FileRead where
  | ok (contents : String)
  | notFound
  | failed (e : PyError)
deriving DecidableEq, Repr

/-- What `json.load(open(args.chat_file))` would produce: a parsed history, a
`FileNotFoundError`, a `json.JSONDecodeError`, or some other exception. -/
inductive ChatFileRead where
  | ok (h : ChatHistory)
  | notFound
  | badJson
  | failed (e : PyError)
deriving DecidableEq, Repr

/-- cli.py lines 170-177: read the terminal-history file when a path was
given; `FileNotFoundError` is tolerated with a warning; any other exception
propagates (this code is before the `try` of line 194). Result: terminal
history together with the warning lines printed. -/
def loadTerminalHistory (histPath : Option String) (r : FileRead) :
    Except PyError (String × List String) :=
  match histPath with
  | none => .ok ("", [])
  | some p =>
    match r with
    | .ok contents => .ok (contents, [])
    | .notFound => .ok ("", [warnHistLine p])
    | .failed e => .error e

/-- cli.py lines 180-190: load the chat history when a path was given;
`FileNotFoundError` is tolerated silently, `json.JSONDecodeError` with a
warning; any other exception propagates (also before the `try`). -/
def loadChatHistory (chatPath : Option String) (r : ChatFileRead) :
    Except PyError (ChatHistory × List String) :=
  match chatPath with
  | none => .ok ([], [])
  | some p =>
    match r with
    | .ok h => .ok (h, [])
    | .notFound => .ok ([], [])
    | .badJson => .ok ([], [warnChatLine p])
    | .failed e => .error e

/-! ## Tag stripping loop (cli.py lines 199-202 and 253-256) -/

/-- `message["content"][0]["text"] = remove_terminal_history_tags(...)` for a
single message: replaces the text of the first content part, raising
`IndexError` when the content list is empty. -/
def stripText (strip : String → String) (m : Message) : Except PyError Message :=
  match m.content with
  | [] => .error .indexError
  | p :: ps => .ok { m with content := { p with text := strip p.text } :: ps }

/-- The loop body over the reversed history: find the first message with
`role == "user"`, strip its first content part, and stop. -/
def stripLastUserRev (strip : String → String) : List Message → Except PyError (List Message)
  | [] => .ok []
  | m :: rest =>
    if m.role == "user" then (stripText strip m).map (· :: rest)
    else (stripLastUserRev strip rest).map (m :: ·)

/-- cli.py lines 199-202 / 253-256:

    for message in reversed(updated_chat_history):
        if message["role"] == "user":
            message["content"][0]["text"] = remove_terminal_history_tags(...)
            break
-/
def stripLastUser (strip : String → String) (h : ChatHistory) : Except PyError ChatHistory :=
  (stripLastUserRev strip h.reverse).map List.reverse

/-! ## Assistant-message lookup and extraction (cli.py lines 205-213, 259-266) -/

/-- cli.py lines 205-209: scan `reversed(history)` for the first message with
`role == "assistant"`. -/
def lastAssistant (h : ChatHistory) : Option Message :=
  h.reverse.find? fun m => m.role == "assistant"

/-- cli.py line 213 / 266: `msg.get("content", [{}])[0].get("text", "")` —
the first content part's text, raising `IndexError` on an empty content list. -/
def extractText (m : Message) : Except PyError String :=
  match m.content with
  | [] => .error .indexError
  | p :: _ => .ok p.text

/-! ## The per-invocation driver (cli.py lines 162-276) -/

/-- The inputs of one `do`/`chat` invocation, with the outcomes of its file
reads supplied as data. `now` is `int(time.time())`; `shell` is
`os.environ.get("SHELL", "/bin/bash")`; `histWriteOk` records whether the
best-effort append of line 234 would succeed. -/
structure Invocation where
  historyFilePath : Option String
  chatFilePath : Option String
  prompt : String
  termRead : FileRead
  chatRead : ChatFileRead
  shell : String
  now : Nat
  histWriteOk : Bool
deriving DecidableEq, Repr

/-- How the process terminated: fell off the end of `main` (exit status 0),
`sys.exit(1)` from the `except` handler of lines 274-276, or an exception
that escaped `main` entirely. -/
inductive Outcome where
  | ok
  | errorExit (msg : String)
  | uncaught (e : PyError)
deriving DecidableEq, Repr

/-- The effects of the body of the `try` block: lines printed inside it, the
on-disk shell-history append (file, appended text) when performed, and the
contents written to the chat file when it was overwritten. -/
structure DoEffects where
  printed : List String
  histAppend : Option (String × String)
  chatSaved : Option ChatHistory
deriving DecidableEq, Repr

/-- The observable result of one invocation. -/
structure RunResult where
  printed : List String
  histAppend : Option (String × String)
  chatSaved : Option ChatHistory
  outcome : Outcome
deriving DecidableEq, Repr

/-- cli.py lines 195-248, the body of the `try` block in `do` mode:
generation, tag stripping, assistant lookup, parsing, the `Command:` and
sentinel prints, the best-effort history append (lines 226-242, failures
swallowed), and finally the chat-file save (lines 246-248). -/
def tryDo (strip : String → String)
    (gen : String → ChatHistory → String → Except PyError ChatHistory)
    (inp : Invocation) (termHist : String) (chatHist : ChatHistory) :
    Except PyError DoEffects := do
  let updated ← gen termHist chatHist inp.prompt
  let stripped ← stripLastUser strip updated
  match lastAssistant stripped with
  | some m => do
    let content ← extractText m
    let cmd := parseDo content
    let histFile := if containsStr "zsh" inp.shell then ".zsh_history" else ".bash_history"
    let entry := if containsStr "zsh" inp.shell then zshHistLine inp.now cmd else bashHistLine cmd
    pure { printed := [commandLine cmd, sentinelLine cmd],
           histAppend := if inp.histWriteOk then some (histFile, entry) else none,
           chatSaved := if inp.chatFilePath.isSome then some stripped else none }
  | none =>
    pure { printed := [], histAppend := none,
           chatSaved := if inp.chatFilePath.isSome then some stripped else none }

/-- cli.py lines 250-272, the body of the `try` block in `chat` mode: the
assistant text is printed verbatim, no sentinel, no history append. -/
def tryChat (strip : String → String)
    (gen : String → ChatHistory → String → Except PyError ChatHistory)
    (inp : Invocation) (termHist : String) (chatHist : ChatHistory) :
    Except PyError DoEffects := do
  let updated ← gen termHist chatHist inp.prompt
  let stripped ← stripLastUser strip updated
  match lastAssistant stripped with
  | some m => do
    let content ← extractText m
    pure { printed := [content], histAppend := none,
           chatSaved := if inp.chatFilePath.isSome then some stripped else none }
  | none =>
    pure { printed := [], histAppend := none,
           chatSaved := if inp.chatFilePath.isSome then some stripped else none }

/-- cli.py lines 170-276: context loading (outside the `try`, so its
unexpected exceptions escape `main`), the thinking line, then the `try` block
whose exceptions are caught by `except Exception as e` (lines 274-276) and
turned into an error line plus `sys.exit(1)`. -/
def runWith (inp : Invocation)
    (body : String → ChatHistory → Except PyError DoEffects) : RunResult :=
  match loadTerminalHistory inp.historyFilePath inp.termRead with
  | .error e => { printed := [], histAppend := none, chatSaved := none, outcome := .uncaught e }
  | .ok (termHist, w1) =>
    match loadChatHistory inp.chatFilePath inp.chatRead with
    | .error e => { printed := w1, histAppend := none, chatSaved := none, outcome := .uncaught e }
    | .ok (chatHist, w2) =>
      match body termHist chatHist with
      | .ok eff =>
        { printed := (w1 ++ w2 ++ [thinkingLine]) ++ eff.printed,
          histAppend := eff.histAppend, chatSaved := eff.chatSaved, outcome := .ok }
      | .error e =>
        { printed := (w1 ++ w2 ++ [thinkingLine]) ++ [errorLine (PyError.message e)],
          histAppend := none, chatSaved := none,
          outcome := .errorExit (PyError.message e) }

/-- One `vity do` invocation. -/
def runDo (strip : String → String)
    (gen : String → ChatHistory → String → Except PyError ChatHistory)
    (inp : Invocation) : RunResult :=
  runWith inp (tryDo strip gen inp)

/-- One `vity chat` invocation. -/
def runChat (strip : String → String)
    (gen : String → ChatHistory → String → Except PyError ChatHistory)
    (inp : Invocation) : RunResult :=
  runWith inp (tryChat strip gen inp)

/-! ## Lemmas about the split machinery -/

theorem splitFirstL_shrink (sep : List Char) (hs : sep ≠ []) :
    ∀ s a b, splitFirstL sep s = some (a, b) → b.length < s.length := by
  intro s
  induction s with
  | nil => intro a b h; simp [splitFirstL] at h
  | cons c t ih =>
    intro a b h
    rw [splitFirstL] at h
    by_cases hp : sep.isPrefixOf (c :: t)
    · rw [if_pos hp] at h
      obtain ⟨rfl, rfl⟩ : [] = a ∧ (c :: t).drop sep.length = b := by
        simpa using h
      have hsep : 0 < sep.length := List.length_pos.mpr hs
      simp only [List.length_drop, List.length_cons]
      omega
    · rw [if_neg hp] at h
      obtain ⟨p, hp2, hpe⟩ := Option.map_eq_some'.mp h
      rw [Prod.mk.injEq] at hpe
      obtain ⟨rfl, rfl⟩ := hpe
      have := ih p.1 p.2 (by simpa using hp2)
      simp only [List.length_cons]
      omega

theorem containsList_eq_isSome (sep : List Char) (hs : sep ≠ []) :
    ∀ s, containsList sep s = (splitFirstL sep s).isSome := by
  intro s
  induction s with
  | nil =>
    simp [containsList, splitFirstL, List.isEmpty_iff, hs]
  | cons c t ih =>
    rw [containsList, splitFirstL]
    by_cases hp : sep.isPrefixOf (c :: t)
    · simp [hp]
    · simp [hp, ih]

theorem pySplitAux_fuel (sep : List Char) (hs : sep ≠ []) :
    ∀ n m s, s.length ≤ n → s.length ≤ m → pySplitAux sep n s = pySplitAux sep m s := by
  intro n
  induction n with
  | zero =>
    intro m s hn _
    have : s = [] := List.length_eq_zero.mp (Nat.le_zero.mp hn)
    subst this
    cases m with
    | zero => rfl
    | succ m => simp [pySplitAux, splitFirstL]
  | succ n ih =>
    intro m s hn hm
    cases m with
    | zero =>
      have : s = [] := List.length_eq_zero.mp (Nat.le_zero.mp hm)
      subst this
      simp [pySplitAux, splitFirstL]
    | succ m =>
      rw [pySplitAux, pySplitAux]
      cases hsf : splitFirstL sep s with
      | none => rfl
      | some p =>
        obtain ⟨a, b⟩ := p
        have hb := splitFirstL_shrink sep hs s a b hsf
        have h1 : b.length ≤ n := by omega
        have h2 : b.length ≤ m := by omega
        show a :: pySplitAux sep n b = a :: pySplitAux sep m b
        rw [ih m b h1 h2]

theorem pySplitL_eq_cons (sep : List Char) (hs : sep ≠ []) (s a b : List Char)
    (h : splitFirstL sep s = some (a, b)) :
    pySplitL sep s = a :: pySplitL sep b := by
  have hslen : s ≠ [] := by
    intro hnil; subst hnil; simp [splitFirstL] at h
  obtain ⟨k, hk⟩ : ∃ k, s.length = k + 1 := by
    cases s with
    | nil => exact absurd rfl hslen
    | cons c t => exact ⟨t.length, rfl⟩
  have hb := splitFirstL_shrink sep hs s a b h
  rw [pySplitL, hk, pySplitAux, h, pySplitL]
  show a :: pySplitAux sep k b = a :: pySplitAux sep b.length b
  rw [pySplitAux_fuel sep hs k b.length b (by omega) (le_refl _)]

theorem pySplitL_eq_single (sep : List Char) (s : List Char)
    (h : splitFirstL sep s = none) : pySplitL sep s = [s] := by
  rw [pySplitL]
  cases hl : s.length with
  | zero => rfl
  | succ k => rw [pySplitAux, h]

/-- When the delimiter occurs in `content`, `content.split(" # ")` has at
least two parts, so the indexing `[0]`/`[1]` of cli.py lines 215-216 cannot
raise. -/
theorem pySplit_two_of_contains (sep s : String) (hs : sep.data ≠ [])
    (h : containsStr sep s = true) :
    ∃ a b t, pySplit sep s = a :: b :: t := by
  rw [containsStr, containsList_eq_isSome sep.data hs] at h
  obtain ⟨⟨a, b⟩, hab⟩ := Option.isSome_iff_exists.mp h
  rw [pySplit, pySplitL_eq_cons sep.data hs s.data a b hab]
  rcases hsf : splitFirstL sep.data b with hnone | ⟨c, d⟩
  · rw [pySplitL_eq_single sep.data b hsf]
    exact ⟨String.mk a, String.mk b, [], rfl⟩
  · rw [pySplitL_eq_cons sep.data hs b c d hsf]
    exact ⟨String.mk a, String.mk c, _, rfl⟩

/-- Lifting a first-occurrence split of a string to the full Python split:
the delimiter test succeeds and `content.split(" # ")` is the command
followed by the split of the text after the first delimiter. -/
theorem pySplit_of_splitFirst (content cmd rest : String)
    (h : splitFirstStr " # " content = some (cmd, rest)) :
    containsStr " # " content = true
    ∧ pySplit " # " content = cmd :: pySplit " # " rest := by
  rw [splitFirstStr] at h
  obtain ⟨⟨a, b⟩, hab, hpe⟩ := Option.map_eq_some'.mp h
  rw [Prod.mk.injEq] at hpe
  obtain ⟨rfl, rfl⟩ := hpe
  constructor
  · rw [containsStr, containsList_eq_isSome _ (by decide), hab]
    rfl
  · rw [pySplit, pySplitL_eq_cons _ (by decide) _ a b hab]
    rfl

/-- C1 (corrected; counterexample): the claim says that with more than one
occurrence of the delimiter, everything after the first occurrence — later
delimiters included — remains part of the comment. On
`"echo hi # one # two"` the code emits `"echo hi # one"`, while the claim's
reading (the spec's parser, `specParseDo`) would emit
`"echo hi # one # two"`: Python's `split(" # ")[1]` keeps only the text
between the first and second occurrence. -/
theorem C1_cex :
    parseDo "echo hi # one # two" = "echo hi # one"
    ∧ specParseDo "echo hi # one # two" = "echo hi # one # two"
    ∧ parseDo "echo hi # one # two" ≠ specParseDo "echo hi # one # two" := by
  refine ⟨by decide, by decide, by decide⟩

/-- C1 (amended): for an assistant text in which the delimiter `" # "` occurs
more than once, the command is everything before the first occurrence, but
the comment that survives is only the text strictly between the first and the
second occurrence (with the marker removed from it); the second occurrence
and everything after it are discarded. -/
theorem C1_amended (content cmd rest d tail : String)
    (h1 : splitFirstStr " # " content = some (cmd, rest))
    (h2 : splitFirstStr " # " rest = some (d, tail)) :
    parseDo content = cmd ++ " # " ++ pyRemoveAll " * vity generated command" d := by
  obtain ⟨hc, hsplit⟩ := pySplit_of_splitFirst content cmd rest h1
  obtain ⟨_, hsplit2⟩ := pySplit_of_splitFirst rest d tail h2
  rw [parseDo, if_pos hc, hsplit, hsplit2]

/-- C1 witness: the amended statement evaluated on `"echo hi # one # two"`. -/
theorem C1_witness :
    parseDo "echo hi # one # two"
      = "echo hi" ++ " # " ++ pyRemoveAll " * vity generated command" "one" :=
  C1_amended "echo hi # one # two" "echo hi" "one # two" "one" "two"
    (by decide) (by decide)

/-- C3 (corrected; counterexample): the claim says the emitted string is
always `"{command} # {comment}"` with the comment being everything after the
first delimiter (markers removed). On `"a # b # c"` the code emits
`"a # b"`, not the claim's `"a # b # c"`. -/
theorem C3_cex :
    parseDo "a # b # c" = "a # b"
    ∧ specParseDo "a # b # c" = "a # b # c"
    ∧ parseDo "a # b # c" ≠ specParseDo "a # b # c" := by
  refine ⟨by decide, by decide, by decide⟩

/-- C3 (amended): for an assistant text in which the delimiter occurs exactly
once, the emitted string is `"{command} # {comment}"` with every occurrence
of the marker `" * vity generated command"` removed from the comment half —
exactly the spec's parser. Moreover the claim's example scenario holds: on
assistant text `"ls -la # lists all files * vity generated command"` the
`do` invocation prints `Command: ls -la # lists all files` followed by the
sentinel `__VITY_CMD__:ls -la # lists all files`. -/
theorem C3_amended :
    (∀ content cmd rest,
        splitFirstStr " # " content = some (cmd, rest) →
        splitFirstStr " # " rest = none →
        parseDo content = cmd ++ " # " ++ pyRemoveAll " * vity generated command" rest
        ∧ parseDo content = specParseDo content)
    ∧ (runDo (fun s => s)
        (fun _ h _ => Except.ok (h ++
          [Message.mk "user" [ContentPart.mk "list files"],
           Message.mk "assistant"
             [ContentPart.mk "ls -la # lists all files * vity generated command"]]))
        (Invocation.mk none none "list files" (FileRead.ok "") (ChatFileRead.ok [])
          "/bin/bash" 0 true)).printed
      = [thinkingLine, commandLine "ls -la # lists all files",
         sentinelLine "ls -la # lists all files"] := by
  constructor
  · intro content cmd rest h1 h2
    obtain ⟨hc, hsplit⟩ := pySplit_of_splitFirst content cmd rest h1
    rw [splitFirstStr] at h2
    have hb : splitFirstL (" # ").data rest.data = none := Option.map_eq_none'.mp h2
    have hrest : pySplit " # " rest = [rest] := by
      rw [pySplit, pySplitL_eq_single _ _ hb]
      rfl
    constructor
    · rw [parseDo, if_pos hc, hsplit, hrest]
    · rw [parseDo, if_pos hc, hsplit, hrest, specParseDo, h1]
  · decide

/-- C3 witness: the exactly-one-delimiter statement evaluated on the claim's
example assistant text. -/
theorem C3_witness :
    parseDo "ls -la # lists all files * vity generated command"
      = "ls -la" ++ " # "
          ++ pyRemoveAll " * vity generated command" "lists all files * vity generated command"
    ∧ parseDo "ls -la # lists all files * vity generated command"
      = specParseDo "ls -la # lists all files * vity generated command" :=
  C3_amended.1 "ls -la # lists all files * vity generated command"
    "ls -la" "lists all files * vity generated command" (by decide) (by decide)

/-! ## Evaluation lemmas for the driver -/

theorem exceptBindOk {α β : Type} (a : α) (f : α → Except PyError β) :
    (Except.ok a >>= f : Except PyError β) = f a := rfl

theorem exceptPureEq {α : Type} (a : α) :
    (pure a : Except PyError α) = Except.ok a := rfl

theorem loadTerminalHistory_error (hp : Option String) (r : FileRead) (e : PyError)
    (h : loadTerminalHistory hp r = Except.error e) : r = FileRead.failed e := by
  cases hp <;> cases r <;> simp_all [loadTerminalHistory]

theorem loadChatHistory_error (hp : Option String) (r : ChatFileRead) (e : PyError)
    (h : loadChatHistory hp r = Except.error e) : r = ChatFileRead.failed e := by
  cases hp <;> cases r <;> simp_all [loadChatHistory]

theorem runWith_term_failed (inp : Invocation)
    (body : String → ChatHistory → Except PyError DoEffects) (e : PyError)
    (hT : loadTerminalHistory inp.historyFilePath inp.termRead = Except.error e) :
    runWith inp body
      = { printed := [], histAppend := none, chatSaved := none, outcome := .uncaught e } := by
  simp only [runWith, hT]

theorem runWith_chat_failed (inp : Invocation)
    (body : String → ChatHistory → Except PyError DoEffects)
    (termHist : String) (w1 : List String) (e : PyError)
    (hT : loadTerminalHistory inp.historyFilePath inp.termRead = Except.ok (termHist, w1))
    (hC : loadChatHistory inp.chatFilePath inp.chatRead = Except.error e) :
    runWith inp body
      = { printed := w1, histAppend := none, chatSaved := none, outcome := .uncaught e } := by
  simp only [runWith, hT, hC]

theorem runWith_ok (inp : Invocation)
    (body : String → ChatHistory → Except PyError DoEffects)
    (termHist : String) (chatHist : ChatHistory) (w1 w2 : List String) (eff : DoEffects)
    (hT : loadTerminalHistory inp.historyFilePath inp.termRead = Except.ok (termHist, w1))
    (hC : loadChatHistory inp.chatFilePath inp.chatRead = Except.ok (chatHist, w2))
    (hB : body termHist chatHist = Except.ok eff) :
    runWith inp body
      = { printed := (w1 ++ w2 ++ [thinkingLine]) ++ eff.printed,
          histAppend := eff.histAppend, chatSaved := eff.chatSaved, outcome := .ok } := by
  simp only [runWith, hT, hC, hB]

theorem runWith_body_error (inp : Invocation)
    (body : String → ChatHistory → Except PyError DoEffects)
    (termHist : String) (chatHist : ChatHistory) (w1 w2 : List String) (e : PyError)
    (hT : loadTerminalHistory inp.historyFilePath inp.termRead = Except.ok (termHist, w1))
    (hC : loadChatHistory inp.chatFilePath inp.chatRead = Except.ok (chatHist, w2))
    (hB : body termHist chatHist = Except.error e) :
    runWith inp body
      = { printed := (w1 ++ w2 ++ [thinkingLine]) ++ [errorLine (PyError.message e)],
          histAppend := none, chatSaved := none,
          outcome := .errorExit (PyError.message e) } := by
  simp only [runWith, hT, hC, hB]

/-- Whenever an invocation does not fall off the end of `main` normally, the
chat file has not been written. -/
theorem runWith_not_ok (inp : Invocation)
    (body : String → ChatHistory → Except PyError DoEffects)
    (h : (runWith inp body).outcome ≠ Outcome.ok) :
    (runWith inp body).chatSaved = none := by
  cases hT : loadTerminalHistory inp.historyFilePath inp.termRead with
  | error e => rw [runWith_term_failed inp body e hT]
  | ok tw =>
    obtain ⟨termHist, w1⟩ := tw
    cases hC : loadChatHistory inp.chatFilePath inp.chatRead with
    | error e => rw [runWith_chat_failed inp body termHist w1 e hT hC]
    | ok cw =>
      obtain ⟨chatHist, w2⟩ := cw
      cases hB : body termHist chatHist with
      | ok eff =>
        exfalso
        apply h
        rw [runWith_ok inp body termHist chatHist w1 w2 eff hT hC hB]
      | error e =>
        rw [runWith_body_error inp body termHist chatHist w1 w2 e hT hC hB]

/-- When neither context-file read raises an unexpected exception, the whole
invocation is covered by the handler: no exception escapes, and an error exit
always prints the `❌ Error:` line. -/
theorem runWith_handled (inp : Invocation)
    (body : String → ChatHistory → Except PyError DoEffects)
    (h1 : ∀ e, inp.termRead ≠ FileRead.failed e)
    (h2 : ∀ e, inp.chatRead ≠ ChatFileRead.failed e) :
    (∀ e, (runWith inp body).outcome ≠ Outcome.uncaught e)
    ∧ (∀ msg, (runWith inp body).outcome = Outcome.errorExit msg →
        errorLine msg ∈ (runWith inp body).printed) := by
  cases hT : loadTerminalHistory inp.historyFilePath inp.termRead with
  | error e => exact absurd (loadTerminalHistory_error _ _ _ hT) (h1 e)
  | ok tw =>
    obtain ⟨termHist, w1⟩ := tw
    cases hC : loadChatHistory inp.chatFilePath inp.chatRead with
    | error e => exact absurd (loadChatHistory_error _ _ _ hC) (h2 e)
    | ok cw =>
      obtain ⟨chatHist, w2⟩ := cw
      cases hB : body termHist chatHist with
      | ok eff =>
        rw [runWith_ok inp body termHist chatHist w1 w2 eff hT hC hB]
        exact ⟨fun e h => Outcome.noConfusion h, fun msg h => Outcome.noConfusion h⟩
      | error e =>
        rw [runWith_body_error inp body termHist chatHist w1 w2 e hT hC hB]
        constructor
        · intro e' h
          exact Outcome.noConfusion h
        · intro msg h
          have hm : PyError.message e = msg := by
            injection h
          subst hm
          simp

/-- C2 (corrected; counterexample): the claim says an unexpected error while
reading either context file is caught and reported as `❌ Error:`. But the
context-file reads (cli.py lines 170-190) happen before the `try` of line
194: a read of the terminal-history file that fails with, say,
`PermissionError` escapes `main` uncaught — nothing is printed and no
`❌ Error:` line appears. -/
theorem C2_cex :
    runDo (fun s => s) (fun _ h _ => Except.ok h)
      (Invocation.mk (some "session.log") none "x"
        (FileRead.failed (PyError.other "Permission denied")) (ChatFileRead.ok [])
        "/bin/bash" 0 true)
      = RunResult.mk [] none none (Outcome.uncaught (PyError.other "Permission denied")) := by
  decide

/-- C2 (amended): exceptions raised inside the handled region — generation,
tag stripping, extraction, persisting (steps 3-6) — are caught at the top
level and reported as `❌ Error: {message}` with a non-zero exit; but the
context-file reads of steps 1-2 are outside the `try` block, so only their
explicitly tolerated missing-file / malformed-JSON cases are survivable: as
long as neither read raises an unexpected exception, no exception escapes, in
both `do` and `chat` mode. -/
theorem C2_amended (strip : String → String)
    (gen genc : String → ChatHistory → String → Except PyError ChatHistory)
    (inp : Invocation)
    (h1 : ∀ e, inp.termRead ≠ FileRead.failed e)
    (h2 : ∀ e, inp.chatRead ≠ ChatFileRead.failed e) :
    ((∀ e, (runDo strip gen inp).outcome ≠ Outcome.uncaught e)
      ∧ (∀ msg, (runDo strip gen inp).outcome = Outcome.errorExit msg →
          errorLine msg ∈ (runDo strip gen inp).printed))
    ∧ ((∀ e, (runChat strip genc inp).outcome ≠ Outcome.uncaught e)
      ∧ (∀ msg, (runChat strip genc inp).outcome = Outcome.errorExit msg →
          errorLine msg ∈ (runChat strip genc inp).printed)) :=
  ⟨runWith_handled inp (tryDo strip gen inp) h1 h2,
   runWith_handled inp (tryChat strip genc inp) h1 h2⟩

/-- C2 witness: a failing generation call in `do` mode is reported via the
`❌ Error:` line. -/
theorem C2_witness :
    errorLine "boom" ∈ (runDo (fun s => s)
      (fun _ _ _ => Except.error (PyError.other "boom"))
      (Invocation.mk none none "x" (FileRead.ok "") (ChatFileRead.ok [])
        "/bin/bash" 0 true)).printed :=
  ((C2_amended (fun s => s) (fun _ _ _ => Except.error (PyError.other "boom"))
      (fun _ _ _ => Except.error (PyError.other "boom"))
      (Invocation.mk none none "x" (FileRead.ok "") (ChatFileRead.ok [])
        "/bin/bash" 0 true)
      (fun _ h => FileRead.noConfusion h)
      (fun _ h => ChatFileRead.noConfusion h)).1.2
    "boom" (by decide))

/-- C10 (confirmed): in both `do` and `chat` mode, if the invocation does not
complete normally — the generation collaborator or any later step inside the
handled region raised — then the chat file was not written: the full
overwrite happens only after every prior step of the invocation succeeded. -/
theorem C10_thm (strip : String → String)
    (gen genc : String → ChatHistory → String → Except PyError ChatHistory)
    (inp : Invocation) :
    ((runDo strip gen inp).outcome ≠ Outcome.ok → (runDo strip gen inp).chatSaved = none)
    ∧ ((runChat strip genc inp).outcome ≠ Outcome.ok →
        (runChat strip genc inp).chatSaved = none) :=
  ⟨runWith_not_ok inp (tryDo strip gen inp), runWith_not_ok inp (tryChat strip genc inp)⟩

/-- C10 witness: an erroring `do` invocation with a chat-file path leaves the
chat file unwritten. -/
theorem C10_witness :
    (runDo (fun s => s) (fun _ _ _ => Except.error (PyError.other "api down"))
      (Invocation.mk none (some "chat.json") "x" (FileRead.ok "") (ChatFileRead.ok [])
        "/bin/bash" 0 true)).chatSaved = none :=
  (C10_thm (fun s => s) (fun _ _ _ => Except.error (PyError.other "api down"))
      (fun _ _ _ => Except.error (PyError.other "api down"))
      (Invocation.mk none (some "chat.json") "x" (FileRead.ok "") (ChatFileRead.ok [])
        "/bin/bash" 0 true)).1 (by decide)

theorem tryDo_eval_some (strip : String → String)
    (gen : String → ChatHistory → String → Except PyError ChatHistory)
    (inp : Invocation) (termHist : String) (chatHist : ChatHistory)
    (updated stripped : ChatHistory) (m : Message) (content : String)
    (hG : gen termHist chatHist inp.prompt = Except.ok updated)
    (hS : stripLastUser strip updated = Except.ok stripped)
    (hA : lastAssistant stripped = some m)
    (hE : extractText m = Except.ok content) :
    tryDo strip gen inp termHist chatHist = Except.ok
      { printed := [commandLine (parseDo content), sentinelLine (parseDo content)],
        histAppend :=
          if inp.histWriteOk then
            some ((if containsStr "zsh" inp.shell then ".zsh_history" else ".bash_history"),
                  (if containsStr "zsh" inp.shell then zshHistLine inp.now (parseDo content)
                   else bashHistLine (parseDo content)))
          else none,
        chatSaved := if inp.chatFilePath.isSome then some stripped else none } := by
  simp only [tryDo, hG, exceptBindOk, hS, hA, hE, exceptPureEq]

theorem tryDo_eval_none (strip : String → String)
    (gen : String → ChatHistory → String → Except PyError ChatHistory)
    (inp : Invocation) (termHist : String) (chatHist : ChatHistory)
    (updated stripped : ChatHistory)
    (hG : gen termHist chatHist inp.prompt = Except.ok updated)
    (hS : stripLastUser strip updated = Except.ok stripped)
    (hA : lastAssistant stripped = none) :
    tryDo strip gen inp termHist chatHist = Except.ok
      { printed := [], histAppend := none,
        chatSaved := if inp.chatFilePath.isSome then some stripped else none } := by
  simp only [tryDo, hG, exceptBindOk, hS, hA, exceptPureEq]

theorem tryChat_eval_some (strip : String → String)
    (gen : String → ChatHistory → String → Except PyError ChatHistory)
    (inp : Invocation) (termHist : String) (chatHist : ChatHistory)
    (updated stripped : ChatHistory) (m : Message) (content : String)
    (hG : gen termHist chatHist inp.prompt = Except.ok updated)
    (hS : stripLastUser strip updated = Except.ok stripped)
    (hA : lastAssistant stripped = some m)
    (hE : extractText m = Except.ok content) :
    tryChat strip gen inp termHist chatHist = Except.ok
      { printed := [content], histAppend := none,
        chatSaved := if inp.chatFilePath.isSome then some stripped else none } := by
  simp only [tryChat, hG, exceptBindOk, hS, hA, hE, exceptPureEq]

/-- C5 (confirmed): whenever an invocation yields an assistant message, in
`do` mode the process prints `Command: {normalized}` immediately followed by
the sentinel line `__VITY_CMD__:{normalized}` on its own line, and in `chat`
mode it prints exactly the assistant text verbatim — no parsing, and no
sentinel line is emitted. -/
theorem C5_thm (strip : String → String) (inp : Invocation)
    (termHist : String) (chatHist : ChatHistory) (w1 w2 : List String)
    (hT : loadTerminalHistory inp.historyFilePath inp.termRead = Except.ok (termHist, w1))
    (hC : loadChatHistory inp.chatFilePath inp.chatRead = Except.ok (chatHist, w2)) :
    (∀ gen updated stripped m content,
        gen termHist chatHist inp.prompt = Except.ok updated →
        stripLastUser strip updated = Except.ok stripped →
        lastAssistant stripped = some m →
        extractText m = Except.ok content →
        (runDo strip gen inp).printed
          = w1 ++ w2 ++ [thinkingLine, commandLine (parseDo content),
              sentinelLine (parseDo content)])
    ∧ (∀ gen updated stripped m content,
        gen termHist chatHist inp.prompt = Except.ok updated →
        stripLastUser strip updated = Except.ok stripped →
        lastAssistant stripped = some m →
        extractText m = Except.ok content →
        (runChat strip gen inp).printed
          = w1 ++ w2 ++ [thinkingLine, content]) := by
  constructor
  · intro gen updated stripped m content hG hS hA hE
    rw [runDo, runWith_ok inp (tryDo strip gen inp) termHist chatHist w1 w2 _ hT hC
      (tryDo_eval_some strip gen inp termHist chatHist updated stripped m content hG hS hA hE)]
    simp
  · intro gen updated stripped m content hG hS hA hE
    rw [runChat, runWith_ok inp (tryChat strip gen inp) termHist chatHist w1 w2 _ hT hC
      (tryChat_eval_some strip gen inp termHist chatHist updated stripped m content hG hS hA hE)]
    simp

/-- C5 witness: the `do` and `chat` print shapes evaluated on a concrete
invocation. -/
theorem C5_witness :
    (runDo (fun s => s)
      (fun _ h _ => Except.ok (h ++
        [Message.mk "user" [ContentPart.mk "q"],
         Message.mk "assistant" [ContentPart.mk "pwd # show dir"]]))
      (Invocation.mk none none "q" (FileRead.ok "") (ChatFileRead.ok [])
        "/bin/bash" 7 true)).printed
      = [] ++ [] ++ [thinkingLine, commandLine (parseDo "pwd # show dir"),
          sentinelLine (parseDo "pwd # show dir")]
    ∧ (runChat (fun s => s)
      (fun _ h _ => Except.ok (h ++
        [Message.mk "user" [ContentPart.mk "q"],
         Message.mk "assistant" [ContentPart.mk "Use grep -r to search recursively."]]))
      (Invocation.mk none none "q" (FileRead.ok "") (ChatFileRead.ok [])
        "/bin/bash" 7 true)).printed
      = [] ++ [] ++ [thinkingLine, "Use grep -r to search recursively."] :=
  ⟨(C5_thm (fun s => s)
      (Invocation.mk none none "q" (FileRead.ok "") (ChatFileRead.ok []) "/bin/bash" 7 true)
      "" [] [] [] rfl rfl).1
      (fun _ h _ => Except.ok (h ++
        [Message.mk "user" [ContentPart.mk "q"],
         Message.mk "assistant" [ContentPart.mk "pwd # show dir"]]))
      _ _ _ _ rfl rfl rfl rfl,
   (C5_thm (fun s => s)
      (Invocation.mk none none "q" (FileRead.ok "") (ChatFileRead.ok []) "/bin/bash" 7 true)
      "" [] [] [] rfl rfl).2
      (fun _ h _ => Except.ok (h ++
        [Message.mk "user" [ContentPart.mk "q"],
         Message.mk "assistant" [ContentPart.mk "Use grep -r to search recursively."]]))
      _ _ _ _ rfl rfl rfl rfl⟩

/-- C8 (confirmed): a `do` invocation that produced a command appends it to
the on-disk shell history file selected by `$SHELL` — `.zsh_history` with the
extended entry `: {unixTimestamp}:0;{command}\n` when the shell contains
`"zsh"`, `.bash_history` with the plain entry `{command}\n` otherwise — and a
failure of this best-effort write is swallowed: the invocation still
completes with a normal exit either way. -/
theorem C8_thm (strip : String → String)
    (gen : String → ChatHistory → String → Except PyError ChatHistory)
    (inp : Invocation) (termHist : String) (chatHist : ChatHistory) (w1 w2 : List String)
    (updated stripped : ChatHistory) (m : Message) (content : String)
    (hT : loadTerminalHistory inp.historyFilePath inp.termRead = Except.ok (termHist, w1))
    (hC : loadChatHistory inp.chatFilePath inp.chatRead = Except.ok (chatHist, w2))
    (hG : gen termHist chatHist inp.prompt = Except.ok updated)
    (hS : stripLastUser strip updated = Except.ok stripped)
    (hA : lastAssistant stripped = some m)
    (hE : extractText m = Except.ok content) :
    ((runDo strip gen inp).histAppend
      = if inp.histWriteOk then
          some ((if containsStr "zsh" inp.shell then ".zsh_history" else ".bash_history"),
                (if containsStr "zsh" inp.shell then zshHistLine inp.now (parseDo content)
                 else bashHistLine (parseDo content)))
        else none)
    ∧ (runDo strip gen inp).outcome = Outcome.ok := by
  rw [runDo, runWith_ok inp (tryDo strip gen inp) termHist chatHist w1 w2 _ hT hC
    (tryDo_eval_some strip gen inp termHist chatHist updated stripped m content hG hS hA hE)]
  exact ⟨rfl, rfl⟩

/-- C8 witness: a zsh shell with a failing append still exits normally, and a
bash shell with a working append records the plain-format entry. -/
theorem C8_witness :
    ((runDo (fun s => s)
      (fun _ h _ => Except.ok (h ++
        [Message.mk "user" [ContentPart.mk "q"],
         Message.mk "assistant" [ContentPart.mk "ls"]]))
      (Invocation.mk none none "q" (FileRead.ok "") (ChatFileRead.ok [])
        "/usr/bin/zsh" 42 false)).histAppend
      = if false then
          some ((if containsStr "zsh" "/usr/bin/zsh" then ".zsh_history" else ".bash_history"),
                (if containsStr "zsh" "/usr/bin/zsh" then zshHistLine 42 (parseDo "ls")
                 else bashHistLine (parseDo "ls")))
        else none)
    ∧ (runDo (fun s => s)
      (fun _ h _ => Except.ok (h ++
        [Message.mk "user" [ContentPart.mk "q"],
         Message.mk "assistant" [ContentPart.mk "ls"]]))
      (Invocation.mk none none "q" (FileRead.ok "") (ChatFileRead.ok [])
        "/usr/bin/zsh" 42 false)).outcome = Outcome.ok :=
  C8_thm (fun s => s)
    (fun _ h _ => Except.ok (h ++
      [Message.mk "user" [ContentPart.mk "q"],
       Message.mk "assistant" [ContentPart.mk "ls"]]))
    (Invocation.mk none none "q" (FileRead.ok "") (ChatFileRead.ok [])
      "/usr/bin/zsh" 42 false)
    "" [] [] [] _ _ _ _ rfl rfl rfl rfl rfl rfl

/-- C9 (confirmed): a `do` invocation whose updated history contains no
assistant message prints no `Command:` line and no sentinel, writes nothing
to the shell history file, still overwrites the chat file with the (stripped)
updated history whenever a chat-file path was given, and exits normally. -/
theorem C9_thm (strip : String → String)
    (gen : String → ChatHistory → String → Except PyError ChatHistory)
    (inp : Invocation) (termHist : String) (chatHist : ChatHistory) (w1 w2 : List String)
    (updated stripped : ChatHistory)
    (hT : loadTerminalHistory inp.historyFilePath inp.termRead = Except.ok (termHist, w1))
    (hC : loadChatHistory inp.chatFilePath inp.chatRead = Except.ok (chatHist, w2))
    (hG : gen termHist chatHist inp.prompt = Except.ok updated)
    (hS : stripLastUser strip updated = Except.ok stripped)
    (hA : lastAssistant stripped = none) :
    runDo strip gen inp
      = { printed := w1 ++ w2 ++ [thinkingLine],
          histAppend := none,
          chatSaved := if inp.chatFilePath.isSome then some stripped else none,
          outcome := Outcome.ok } := by
  rw [runDo, runWith_ok inp (tryDo strip gen inp) termHist chatHist w1 w2 _ hT hC
    (tryDo_eval_none strip gen inp termHist chatHist updated stripped hG hS hA)]
  simp

/-- C9 witness: a collaborator that returns only a user message leads to no
command output, no history append, a saved chat file, and a normal exit. -/
theorem C9_witness :
    runDo (fun s => s)
      (fun _ h _ => Except.ok (h ++ [Message.mk "user" [ContentPart.mk "q"]]))
      (Invocation.mk none (some "chat.json") "q" (FileRead.ok "") (ChatFileRead.ok [])
        "/bin/bash" 3 true)
      = { printed := [] ++ [] ++ [thinkingLine],
          histAppend := none,
          chatSaved := some [Message.mk "user" [ContentPart.mk "q"]],
          outcome := Outcome.ok } :=
  C9_thm (fun s => s)
    (fun _ h _ => Except.ok (h ++ [Message.mk "user" [ContentPart.mk "q"]]))
    (Invocation.mk none (some "chat.json") "q" (FileRead.ok "") (ChatFileRead.ok [])
      "/bin/bash" 3 true)
    "" [] [] [] [Message.mk "user" [ContentPart.mk "q"]]
    [Message.mk "user" [ContentPart.mk "q"]] rfl rfl rfl rfl rfl

theorem loadTerminalHistory_nofail (hp : Option String) (r : FileRead)
    (h : ∀ e, r ≠ FileRead.failed e) :
    ∃ t w, loadTerminalHistory hp r = Except.ok (t, w) := by
  cases hp <;> cases r
  case none.failed e => exact absurd rfl (h e)
  case some.failed p e => exact absurd rfl (h e)
  all_goals exact ⟨_, _, rfl⟩

theorem runWith_thinking (inp : Invocation)
    (body : String → ChatHistory → Except PyError DoEffects)
    (termHist : String) (chatHist : ChatHistory) (w1 w2 : List String)
    (hT : loadTerminalHistory inp.historyFilePath inp.termRead = Except.ok (termHist, w1))
    (hC : loadChatHistory inp.chatFilePath inp.chatRead = Except.ok (chatHist, w2)) :
    thinkingLine ∈ (runWith inp body).printed := by
  cases hB : body termHist chatHist with
  | ok eff =>
    rw [runWith_ok inp body termHist chatHist w1 w2 eff hT hC hB]
    simp
  | error e =>
    rw [runWith_body_error inp body termHist chatHist w1 w2 e hT hC hB]
    simp

/-- C4 (confirmed): with a chat-file path given, loading fails softly: a
missing file yields an empty history with no exception and no warning; a file
with malformed JSON yields an empty history plus a warning line; in both
cases the invocation continues (the thinking line is reached and no exception
escapes) rather than aborting. -/
theorem C4_thm (strip : String → String)
    (gen : String → ChatHistory → String → Except PyError ChatHistory)
    (inp : Invocation) (p : String)
    (hp : inp.chatFilePath = some p)
    (ht : ∀ e, inp.termRead ≠ FileRead.failed e) :
    (inp.chatRead = ChatFileRead.notFound →
        loadChatHistory inp.chatFilePath inp.chatRead = Except.ok ([], []))
    ∧ (inp.chatRead = ChatFileRead.badJson →
        loadChatHistory inp.chatFilePath inp.chatRead = Except.ok ([], [warnChatLine p]))
    ∧ ((inp.chatRead = ChatFileRead.notFound ∨ inp.chatRead = ChatFileRead.badJson) →
        thinkingLine ∈ (runDo strip gen inp).printed
        ∧ ∀ e, (runDo strip gen inp).outcome ≠ Outcome.uncaught e) := by
  refine ⟨fun h => by rw [hp, h]; rfl, fun h => by rw [hp, h]; rfl, fun h => ?_⟩
  have h2 : ∀ e, inp.chatRead ≠ ChatFileRead.failed e := by
    rcases h with h | h <;> rw [h] <;> intro e he <;> exact ChatFileRead.noConfusion he
  obtain ⟨t, w, hT⟩ := loadTerminalHistory_nofail inp.historyFilePath inp.termRead ht
  have hCex : ∃ ch w2, loadChatHistory inp.chatFilePath inp.chatRead = Except.ok (ch, w2) := by
    rcases h with h | h <;> rw [hp, h]
    · exact ⟨[], [], rfl⟩
    · exact ⟨[], [warnChatLine p], rfl⟩
  obtain ⟨ch, w2, hC⟩ := hCex
  exact ⟨runWith_thinking inp (tryDo strip gen inp) t ch w w2 hT hC,
         (runWith_handled inp (tryDo strip gen inp) ht h2).1⟩

/-- C4 witness: a chat file with malformed JSON at a concrete invocation. -/
theorem C4_witness :
    loadChatHistory (some "chat.json") ChatFileRead.badJson
      = Except.ok ([], [warnChatLine "chat.json"])
    ∧ thinkingLine ∈ (runDo (fun s => s) (fun _ h _ => Except.ok h)
        (Invocation.mk none (some "chat.json") "x" (FileRead.ok "") ChatFileRead.badJson
          "/bin/bash" 0 true)).printed :=
  ⟨(C4_thm (fun s => s) (fun _ h _ => Except.ok h)
      (Invocation.mk none (some "chat.json") "x" (FileRead.ok "") ChatFileRead.badJson
        "/bin/bash" 0 true) "chat.json" rfl
      (fun _ he => FileRead.noConfusion he)).2.1 rfl,
   ((C4_thm (fun s => s) (fun _ h _ => Except.ok h)
      (Invocation.mk none (some "chat.json") "x" (FileRead.ok "") ChatFileRead.badJson
        "/bin/bash" 0 true) "chat.json" rfl
      (fun _ he => FileRead.noConfusion he)).2.2 (Or.inr rfl)).1⟩

theorem runWith_missing_hist (inp : Invocation) (p : String)
    (body : String → ChatHistory → Except PyError DoEffects)
    (hp : inp.historyFilePath = some p)
    (hr : inp.termRead = FileRead.notFound) :
    runWith inp body
      = { runWith { inp with historyFilePath := none } body with
          printed := warnHistLine p ::
            (runWith { inp with historyFilePath := none } body).printed } := by
  have hT : loadTerminalHistory inp.historyFilePath inp.termRead
      = Except.ok ("", [warnHistLine p]) := by rw [hp, hr]; rfl
  have hT' : loadTerminalHistory
      ({ inp with historyFilePath := none } : Invocation).historyFilePath
      ({ inp with historyFilePath := none } : Invocation).termRead
      = Except.ok ("", []) := rfl
  cases hC : loadChatHistory inp.chatFilePath inp.chatRead with
  | error e =>
    rw [runWith_chat_failed inp body "" [warnHistLine p] e hT hC,
        runWith_chat_failed { inp with historyFilePath := none } body "" [] e hT' hC]
  | ok cw =>
    obtain ⟨ch, w2⟩ := cw
    cases hB : body "" ch with
    | ok eff =>
      rw [runWith_ok inp body "" ch [warnHistLine p] w2 eff hT hC hB,
          runWith_ok { inp with historyFilePath := none } body "" ch [] w2 eff hT' hC hB]
      simp
    | error e =>
      rw [runWith_body_error inp body "" ch [warnHistLine p] w2 e hT hC hB,
          runWith_body_error { inp with historyFilePath := none } body "" ch [] w2 e
            hT' hC hB]
      simp

/-- C7 (confirmed): when the given terminal-history file does not exist, the
warning line is printed first, the terminal history is the empty string, and
the invocation otherwise proceeds exactly as if no history file had been
given — in both `do` and `chat` mode. -/
theorem C7_thm (strip : String → String)
    (gen genc : String → ChatHistory → String → Except PyError ChatHistory)
    (inp : Invocation) (p : String)
    (hp : inp.historyFilePath = some p)
    (hr : inp.termRead = FileRead.notFound) :
    loadTerminalHistory inp.historyFilePath inp.termRead
      = Except.ok ("", [warnHistLine p])
    ∧ runDo strip gen inp
        = { runDo strip gen { inp with historyFilePath := none } with
            printed := warnHistLine p ::
              (runDo strip gen { inp with historyFilePath := none }).printed }
    ∧ runChat strip genc inp
        = { runChat strip genc { inp with historyFilePath := none } with
            printed := warnHistLine p ::
              (runChat strip genc { inp with historyFilePath := none }).printed } := by
  refine ⟨by rw [hp, hr]; rfl, ?_, ?_⟩
  · have hbody : tryDo strip gen { inp with historyFilePath := none }
        = tryDo strip gen inp := rfl
    show runWith inp (tryDo strip gen inp) = _
    rw [runWith_missing_hist inp p (tryDo strip gen inp) hp hr]
    rw [runDo, hbody]
  · have hbody : tryChat strip genc { inp with historyFilePath := none }
        = tryChat strip genc inp := rfl
    show runWith inp (tryChat strip genc inp) = _
    rw [runWith_missing_hist inp p (tryChat strip genc inp) hp hr]
    rw [runChat, hbody]

/-- C7 witness: a concrete invocation with an absent history file. -/
theorem C7_witness :
    loadTerminalHistory
      (Invocation.mk (some "h.log") none "x" FileRead.notFound (ChatFileRead.ok [])
        "sh" 0 false).historyFilePath
      (Invocation.mk (some "h.log") none "x" FileRead.notFound (ChatFileRead.ok [])
        "sh" 0 false).termRead
      = Except.ok ("", [warnHistLine "h.log"])
    ∧ runDo (fun s => s) (fun _ h _ => Except.ok h)
        (Invocation.mk (some "h.log") none "x" FileRead.notFound (ChatFileRead.ok [])
          "sh" 0 false)
        = { runDo (fun s => s) (fun _ h _ => Except.ok h)
              { Invocation.mk (some "h.log") none "x" FileRead.notFound (ChatFileRead.ok [])
                  "sh" 0 false with historyFilePath := none } with
            printed := warnHistLine "h.log" ::
              (runDo (fun s => s) (fun _ h _ => Except.ok h)
                { Invocation.mk (some "h.log") none "x" FileRead.notFound
                    (ChatFileRead.ok []) "sh" 0 false with
                  historyFilePath := none }).printed }
    ∧ runChat (fun s => s) (fun _ h _ => Except.ok h)
        (Invocation.mk (some "h.log") none "x" FileRead.notFound (ChatFileRead.ok [])
          "sh" 0 false)
        = { runChat (fun s => s) (fun _ h _ => Except.ok h)
              { Invocation.mk (some "h.log") none "x" FileRead.notFound (ChatFileRead.ok [])
                  "sh" 0 false with historyFilePath := none } with
            printed := warnHistLine "h.log" ::
              (runChat (fun s => s) (fun _ h _ => Except.ok h)
                { Invocation.mk (some "h.log") none "x" FileRead.notFound
                    (ChatFileRead.ok []) "sh" 0 false with
                  historyFilePath := none }).printed } :=
  C7_thm (fun s => s) (fun _ h _ => Except.ok h) (fun _ h _ => Except.ok h)
    (Invocation.mk (some "h.log") none "x" FileRead.notFound (ChatFileRead.ok [])
      "sh" 0 false) "h.log" rfl rfl

/-- Characterisation of the tag-stripping loop body on the reversed history:
either no user message occurs and the list is untouched, or the list splits
as `a ++ m :: b` with `m` the first user message (no user message in `a`),
and only `m`'s first content part is rewritten. -/
theorem stripRev_spec (strip : String → String) :
    ∀ l l', stripLastUserRev strip l = Except.ok l' →
      ((∀ m ∈ l, ¬ m.role = "user") ∧ l' = l)
      ∨ (∃ a m b p ps, l = a ++ m :: b
          ∧ (∀ x ∈ a, ¬ x.role = "user")
          ∧ m.role = "user"
          ∧ m.content = p :: ps
          ∧ l' = a ++ { m with content := { p with text := strip p.text } :: ps } :: b) := by
  intro l
  induction l with
  | nil =>
    intro l' h
    left
    refine ⟨by simp, ?_⟩
    rw [stripLastUserRev] at h
    exact (Except.ok.injEq _ _ ).mp h.symm
  | cons m rest ih =>
    intro l' h
    rw [stripLastUserRev] at h
    by_cases hu : m.role = "user"
    · rw [if_pos (by simp [hu])] at h
      cases hc : m.content with
      | nil =>
        rw [stripText, hc] at h
        exact Except.noConfusion h
      | cons p ps =>
        rw [stripText, hc] at h
        right
        refine ⟨[], m, rest, p, ps, rfl, by simp, hu, hc, ?_⟩
        have : ({ m with content := { p with text := strip p.text } :: ps } :: rest : List Message) = l' :=
          (Except.ok.injEq _ _ ).mp h
        simp [← this]
    · rw [if_neg (by simp [hu])] at h
      cases hrec : stripLastUserRev strip rest with
      | error e =>
        rw [hrec] at h
        exact Except.noConfusion h
      | ok r' =>
        rw [hrec] at h
        have hl' : m :: r' = l' := (Except.ok.injEq _ _ ).mp h
        rcases ih r' hrec with ⟨hno, hrr⟩ | ⟨a, mm, b, p, ps, hsplit, hano, hrole, hcont, hres⟩
        · left
          refine ⟨?_, ?_⟩
          · intro x hx
            rcases List.mem_cons.mp hx with hx | hx
            · rw [hx]; exact hu
            · exact hno x hx
          · rw [← hl', hrr]
        · right
          refine ⟨m :: a, mm, b, p, ps, by simp [hsplit], ?_, hrole, hcont, ?_⟩
          · intro x hx
            rcases List.mem_cons.mp hx with hx | hx
            · rw [hx]; exact hu
            · exact hano x hx
          · rw [← hl', hres]
            rfl

/-- C6 (confirmed): when the stripping pass over the updated history
succeeds, either the history contains no user message and is returned
unchanged, or it decomposes as `pre ++ m :: post` where `m` is the most
recent user message (no user message occurs after it), and the result is
`pre ++ m' :: post` with `m'` equal to `m` except that the text of its first
content part has been replaced by its stripped form — every assistant message
and every earlier user turn is unchanged. -/
theorem C6_thm (strip : String → String) (h h' : ChatHistory)
    (hok : stripLastUser strip h = Except.ok h') :
    ((∀ m ∈ h, ¬ m.role = "user") ∧ h' = h)
    ∨ (∃ pre m post p ps, h = pre ++ m :: post
        ∧ m.role = "user"
        ∧ (∀ x ∈ post, ¬ x.role = "user")
        ∧ m.content = p :: ps
        ∧ h' = pre ++ { m with content := { p with text := strip p.text } :: ps } :: post) := by
  rw [stripLastUser] at hok
  cases hr : stripLastUserRev strip h.reverse with
  | error e =>
    rw [hr] at hok
    exact Except.noConfusion hok
  | ok l' =>
    rw [hr] at hok
    have hh' : l'.reverse = h' := (Except.ok.injEq _ _ ).mp hok
    rcases stripRev_spec strip h.reverse l' hr with ⟨hno, hrr⟩ | ⟨a, m, b, p, ps, hsplit, hano, hrole, hcont, hres⟩
    · left
      refine ⟨fun m hm => hno m (List.mem_reverse.mpr hm), ?_⟩
      rw [← hh', hrr, List.reverse_reverse]
    · right
      refine ⟨b.reverse, m, a.reverse, p, ps, ?_, hrole, ?_, hcont, ?_⟩
      · have := congrArg List.reverse hsplit
        rw [List.reverse_reverse] at this
        rw [this]
        simp
      · intro x hx
        exact hano x (List.mem_reverse.mp hx)
      · rw [← hh', hres]
        simp

/-- A concrete stand-in for `remove_terminal_history_tags`, used in the C6
witness. -/
def strip0 : String → String := fun _ => "STRIPPED"

/-- C6 witness: stripping a concrete three-message history rewrites exactly
the final user message's first content part. -/
theorem C6_witness :
    ((∀ m ∈ ([Message.mk "assistant" [ContentPart.mk "hello"],
              Message.mk "user" [ContentPart.mk "tagged text", ContentPart.mk "extra"],
              Message.mk "assistant" [ContentPart.mk "ls # list"]] : ChatHistory),
        ¬ m.role = "user")
      ∧ ([Message.mk "assistant" [ContentPart.mk "hello"],
          Message.mk "user" [ContentPart.mk "STRIPPED", ContentPart.mk "extra"],
          Message.mk "assistant" [ContentPart.mk "ls # list"]] : ChatHistory)
          = [Message.mk "assistant" [ContentPart.mk "hello"],
             Message.mk "user" [ContentPart.mk "tagged text", ContentPart.mk "extra"],
             Message.mk "assistant" [ContentPart.mk "ls # list"]])
    ∨ (∃ pre m post p ps,
        ([Message.mk "assistant" [ContentPart.mk "hello"],
          Message.mk "user" [ContentPart.mk "tagged text", ContentPart.mk "extra"],
          Message.mk "assistant" [ContentPart.mk "ls # list"]] : ChatHistory)
          = pre ++ m :: post
        ∧ m.role = "user"
        ∧ (∀ x ∈ post, ¬ x.role = "user")
        ∧ m.content = p :: ps
        ∧ ([Message.mk "assistant" [ContentPart.mk "hello"],
            Message.mk "user" [ContentPart.mk "STRIPPED", ContentPart.mk "extra"],
            Message.mk "assistant" [ContentPart.mk "ls # list"]] : ChatHistory)
            = pre ++ { m with content := { p with text := strip0 p.text } :: ps } :: post) :=
  C6_thm strip0
    [Message.mk "assistant" [ContentPart.mk "hello"],
     Message.mk "user" [ContentPart.mk "tagged text", ContentPart.mk "extra"],
     Message.mk "assistant" [ContentPart.mk "ls # list"]]
    [Message.mk "assistant" [ContentPart.mk "hello"],
     Message.mk "user" [ContentPart.mk "STRIPPED", ContentPart.mk "extra"],
     Message.mk "assistant" [ContentPart.mk "ls # list"]]
    rfl

end Vity
